import Mathlib

/-!
Verification of the coffeetrix24 session-lifecycle engine.

The SQLite-backed store (internal/db/db.go) is modelled as an in-memory
record of its two mutable tables, `daily_sessions` and `participants`.
Row ids follow the AUTOINCREMENT discipline: each table carries the next
id to be assigned and rows are appended in id order.  SQL errors that
matter to the logic (UNIQUE-constraint violations, no-rows results) are
modelled explicitly; environmental failures (busy, io) are outside the
model, matching the spec treatment of the store as an opaque capability.

Timestamps are integers (Unix instants); `time.Time.After` is strict
integer comparison.
-/

namespace Coffeetrix

/-- One row of the daily_sessions table (schema.sql): id INTEGER PRIMARY KEY
AUTOINCREMENT, chat_id, session_date, invite_message_id (nullable),
signup_deadline (nullable), closed INTEGER NOT NULL DEFAULT 0,
UNIQUE(chat_id, session_date). -/
structure SessionRow where
  id : Int
  chatId : Int
  sessionDate : String
  inviteMessageId : Option Int
  signupDeadline : Option Int
  closed : Int
  deriving DecidableEq

/-- One row of the participants table (schema.sql): id INTEGER PRIMARY KEY
AUTOINCREMENT, session_id, user_id, username, display_name,
UNIQUE(session_id, user_id). -/
structure ParticipantRow where
  id : Int
  sessionId : Int
  userId : Int
  username : String
  displayName : String
  deriving DecidableEq

/-- The mutable state of the store: both tables in insertion (= id) order,
plus the AUTOINCREMENT counters. -/
structure Store where
  sessions : List SessionRow
  participants : List ParticipantRow
  nextSessionRowId : Int
  nextParticipantRowId : Int
  deriving DecidableEq

/-- SELECT ... FROM daily_sessions WHERE chat_id=? AND session_date=?
(first matching row, as a single-row query). -/
def findSession (st : Store) (chatId : Int) (date : String) : Option SessionRow :=
  st.sessions.find? fun r => r.chatId == chatId && r.sessionDate == date

/-- Number of daily_sessions rows for a (chat_id, session_date) pair;
the spec invariant is that this never exceeds 1. -/
def sessionCount (st : Store) (chatId : Int) (date : String) : Nat :=
  (st.sessions.filter fun r => r.chatId == chatId && r.sessionDate == date).length

/-- INSERT INTO daily_sessions (chat_id, session_date, signup_deadline)
VALUES (?, ?, ?).  Returns none exactly on a violation of the
UNIQUE(chat_id, session_date) constraint, the only constraint this insert
can break; otherwise the new row (closed defaulting to 0,
invite_message_id to NULL) and its AUTOINCREMENT id. -/
def insertSession (st : Store) (chatId : Int) (date : String) (deadline : Int) :
    Option (Store × Int) :=
  if (findSession st chatId date).isSome then none
  else
    some ({ st with
              sessions := st.sessions ++
                [{ id := st.nextSessionRowId, chatId := chatId, sessionDate := date,
                   inviteMessageId := none, signupDeadline := some deadline, closed := 0 }],
              nextSessionRowId := st.nextSessionRowId + 1 },
          st.nextSessionRowId)

/-- Store.CreateOrGetTodaySession (internal/db/db.go): attempt the insert
first; on a uniqueness conflict for (chat_id, session_date), re-read the
existing row and return its id with a nil error; any other outcome of the
re-read is the error path of the Go code. -/
def CreateOrGetTodaySession (st : Store) (chatId : Int) (date : String) (deadline : Int) :
    Except String (Store × Int) :=
  match insertSession st chatId date deadline with
  | some (st2, id) => .ok (st2, id)
  | none =>
    match findSession st chatId date with
    | some r => .ok (st, r.id)
    | none => .error "unique conflict but existing row not found"

/-- A sequence of CreateOrGetTodaySession calls for one (chat, date) pair,
one call per listed deadline, threading the store and collecting the
returned session ids.  This is the serialized interleaving of concurrent
callers: the store is the single writer-serialization point. -/
def createOrGetRuns (chatId : Int) (date : String) :
    Store → List Int → Except String (Store × List Int)
  | st, [] => .ok (st, [])
  | st, dl :: dls =>
    match CreateOrGetTodaySession st chatId date dl with
    | .ok (st1, id) =>
      match createOrGetRuns chatId date st1 dls with
      | .ok (st2, ids) => .ok (st2, id :: ids)
      | .error e => .error e
    | .error e => .error e

section SessionUniqueness

/-- Helper: a find? miss means the filter for the pair is empty. -/
theorem findSession_none_iff (st : Store) (c : Int) (d : String) :
    findSession st c d = none ↔ sessionCount st c d = 0 := by
  simp [findSession, sessionCount, List.find?_eq_none, List.length_eq_zero,
    List.filter_eq_nil_iff]

/-- Helper: behaviour of CreateOrGetTodaySession when a row already exists. -/
theorem createOrGet_existing {st : Store} {c : Int} {d : String} {r : SessionRow}
    (h : findSession st c d = some r) (dl : Int) :
    CreateOrGetTodaySession st c d dl = .ok (st, r.id) := by
  unfold CreateOrGetTodaySession insertSession
  rw [h]
  simp

/-- Helper: behaviour of CreateOrGetTodaySession when no row exists yet:
the insert wins and appends one row for the pair. -/
theorem createOrGet_fresh {st : Store} {c : Int} {d : String}
    (h : findSession st c d = none) (dl : Int) :
    CreateOrGetTodaySession st c d dl =
      .ok ({ st with
               sessions := st.sessions ++
                 [{ id := st.nextSessionRowId, chatId := c, sessionDate := d,
                    inviteMessageId := none, signupDeadline := some dl, closed := 0 }],
               nextSessionRowId := st.nextSessionRowId + 1 },
           st.nextSessionRowId) := by
  unfold CreateOrGetTodaySession insertSession
  rw [h]
  simp

/-- Helper: a find? hit means at least one row exists for the pair. -/
theorem sessionCount_pos_of_find {st : Store} {c : Int} {d : String} {r : SessionRow}
    (h : findSession st c d = some r) : 1 ≤ sessionCount st c d := by
  unfold findSession at h
  have hmem : r ∈ st.sessions := List.mem_of_find?_eq_some h
  have hp := List.find?_some h
  have : r ∈ st.sessions.filter fun x => x.chatId == c && x.sessionDate == d :=
    List.mem_filter.mpr ⟨hmem, hp⟩
  have := List.length_pos.mpr (List.ne_nil_of_mem this)
  simpa [sessionCount] using this

/-- Helper: the state produced by a fresh insert for (c, d). -/
def freshInsertState (st : Store) (c : Int) (d : String) (dl : Int) : Store :=
  { st with
      sessions := st.sessions ++
        [{ id := st.nextSessionRowId, chatId := c, sessionDate := d,
           inviteMessageId := none, signupDeadline := some dl, closed := 0 }],
      nextSessionRowId := st.nextSessionRowId + 1 }

/-- Helper: after a fresh insert the pair is found, at the new row. -/
theorem findSession_freshInsert {st : Store} {c : Int} {d : String}
    (h : findSession st c d = none) (dl : Int) :
    findSession (freshInsertState st c d dl) c d =
      some { id := st.nextSessionRowId, chatId := c, sessionDate := d,
             inviteMessageId := none, signupDeadline := some dl, closed := 0 } := by
  unfold findSession freshInsertState at *
  simp [List.find?_append, h]

/-- Helper: the fresh insert raises the count of its own pair by one and
leaves every other pair untouched. -/
theorem sessionCount_freshInsert (st : Store) (c : Int) (d : String) (dl : Int)
    (c' : Int) (d' : String) :
    sessionCount (freshInsertState st c d dl) c' d' =
      sessionCount st c' d' + (if c = c' ∧ d = d' then 1 else 0) := by
  unfold sessionCount freshInsertState
  by_cases hc : c = c' ∧ d = d'
  · simp [List.filter_append, hc.1, hc.2]
  · have : ((c : Int) == c' && (d : String) == d') = false := by
      rcases not_and_or.mp hc with h | h <;> simp [h]
    simp [List.filter_append, this, hc]

/-- Helper: once the pair has a row, every further call in a run returns
that row's id and leaves the store unchanged. -/
theorem createOrGetRuns_existing {st : Store} {c : Int} {d : String} {r : SessionRow}
    (h : findSession st c d = some r) :
    ∀ dls : List Int,
      createOrGetRuns c d st dls = .ok (st, List.replicate dls.length r.id) := by
  intro dls
  induction dls with
  | nil => simp [createOrGetRuns]
  | cons dl dls ih =>
    simp [createOrGetRuns, createOrGet_existing h dl, ih, List.replicate_succ]

/-- Claim C1: from any state in which every (chat, date) pair has at most
one session row, any serialized run of CreateOrGetTodaySession calls for
one pair succeeds, returns one and the same session id to every caller,
leaves exactly one persisted row for that pair, and preserves the
at-most-one-row invariant for every pair. -/
theorem claim_C1_session_per_day_unique
    (st : Store) (c : Int) (d : String) (dl : Int) (dls : List Int)
    (hu : ∀ c' d', sessionCount st c' d' ≤ 1) :
    ∃ st' i,
      createOrGetRuns c d st (dl :: dls) = .ok (st', List.replicate (dls.length + 1) i)
        ∧ sessionCount st' c d = 1
        ∧ ∀ c' d', sessionCount st' c' d' ≤ 1 := by
  cases hfind : findSession st c d with
  | some r =>
    refine ⟨st, r.id, ?_, ?_, hu⟩
    · simpa [List.replicate_succ] using createOrGetRuns_existing hfind (dl :: dls)
    · exact le_antisymm (hu c d) (sessionCount_pos_of_find hfind)
  | none =>
    set st1 := freshInsertState st c d dl with hst1
    have hfind1 := findSession_freshInsert hfind dl
    have hcount1 : ∀ c' d', sessionCount st1 c' d' =
        sessionCount st c' d' + (if c = c' ∧ d = d' then 1 else 0) :=
      fun c' d' => sessionCount_freshInsert st c d dl c' d'
    refine ⟨st1, st.nextSessionRowId, ?_, ?_, ?_⟩
    · have hrest := createOrGetRuns_existing hfind1 dls
      simp only [createOrGetRuns, createOrGet_fresh hfind dl]
      rw [show ({ st with
              sessions := st.sessions ++
                [{ id := st.nextSessionRowId, chatId := c, sessionDate := d,
                   inviteMessageId := none, signupDeadline := some dl, closed := 0 }],
              nextSessionRowId := st.nextSessionRowId + 1 } : Store) = st1 from rfl]
      simp [hrest, List.replicate_succ]
    · have h0 : sessionCount st c d = 0 := (findSession_none_iff st c d).mp hfind
      simp [hcount1 c d, h0]
    · intro c' d'
      by_cases hc : c = c' ∧ d = d'
      · have h0 : sessionCount st c d = 0 := (findSession_none_iff st c d).mp hfind
        rw [hcount1 c' d']
        rw [← hc.1, ← hc.2]
        simp [h0]
      · rw [hcount1 c' d']
        simp [hc]
        exact hu c' d'

/-- Witness for claim C1 at a concrete input: an empty store, three calls
for chat 7 on date 2024-05-01. -/
theorem claim_C1_session_per_day_unique_witness :
    ∃ st' i,
      createOrGetRuns 7 "2024-05-01" (Store.mk [] [] 1 1) [100, 200, 300] =
          .ok (st', List.replicate 3 i)
        ∧ sessionCount st' 7 "2024-05-01" = 1
        ∧ ∀ c' d', sessionCount st' c' d' ≤ 1 := by
  have h := claim_C1_session_per_day_unique (Store.mk [] [] 1 1) 7 "2024-05-01"
    100 [200, 300] (by intro c' d'; simp [sessionCount])
  simpa using h

end SessionUniqueness

/-- Claim C8: an insert that hits the (chat, date) uniqueness constraint is
not surfaced as an error: the conflict really occurs, and the operation
re-reads the winning row and returns its id with a nil error, leaving the
store exactly as it was. -/
theorem claim_C8_uniqueness_conflict_resolved
    (st : Store) (c : Int) (d : String) (r : SessionRow) (dl : Int)
    (h : findSession st c d = some r) :
    insertSession st c d dl = none
      ∧ CreateOrGetTodaySession st c d dl = .ok (st, r.id) := by
  constructor
  · unfold insertSession
    rw [h]
    simp
  · exact createOrGet_existing h dl

/-- Witness for claim C8 at a concrete store holding one session row. -/
theorem claim_C8_uniqueness_conflict_resolved_witness :
    insertSession (Store.mk [SessionRow.mk 4 7 "2024-05-01" none (some 100) 0] [] 5 1)
        7 "2024-05-01" 250 = none
      ∧ CreateOrGetTodaySession
          (Store.mk [SessionRow.mk 4 7 "2024-05-01" none (some 100) 0] [] 5 1)
          7 "2024-05-01" 250 =
        .ok (Store.mk [SessionRow.mk 4 7 "2024-05-01" none (some 100) 0] [] 5 1, 4) :=
  claim_C8_uniqueness_conflict_resolved
    (Store.mk [SessionRow.mk 4 7 "2024-05-01" none (some 100) 0] [] 5 1)
    7 "2024-05-01" (SessionRow.mk 4 7 "2024-05-01" none (some 100) 0) 250 (by decide)

/-! The deadline passed by the caller (Bot.sendInviteToChat): the signup
window defaults to 30 minutes when unset, and deadline = now + window.
Durations are in nanoseconds as in Go time.Duration. -/

/-- Thirty minutes (30 * time.Minute) in nanoseconds. -/
def defaultSignupWindow : Int := 1800000000000

/-- Bot.sendInviteToChat deadline computation: now.Add(window) with the
zero window replaced by the 30 minute default. -/
def inviteDeadline (now window : Int) : Int :=
  now + (if window = 0 then defaultSignupWindow else window)

namespace AltStore

/-- The forward update of part_004: UPDATE daily_sessions SET
signup_deadline=? WHERE chat_id=? AND session_date=? AND (signup_deadline
IS NULL OR signup_deadline < ?), applied to one row. -/
def updRow (c : Int) (d : String) (dl : Int) (r : SessionRow) : SessionRow :=
  if r.chatId == c && r.sessionDate == d
      && (match r.signupDeadline with
          | none => true
          | some x => decide (x < dl)) then
    { r with signupDeadline := some dl }
  else r

/-- The UPDATE statement over the whole table. -/
def updateDeadlineForward (st : Store) (c : Int) (d : String) (dl : Int) : Store :=
  { st with sessions := st.sessions.map (updRow c d dl) }

/-- The variant of Store.CreateOrGetTodaySession found in
src/unnamed/part_004: INSERT OR IGNORE, then a best-effort monotone
deadline update, then re-read the id; the explicit-retry branch of the Go
code runs only if the re-read finds no row. -/
def CreateOrGetTodaySession (st : Store) (c : Int) (d : String) (dl : Int) :
    Except String (Store × Int) :=
  let st1 := match insertSession st c d dl with
             | some (st', _) => st'
             | none => st
  let st2 := updateDeadlineForward st1 c d dl
  match findSession st2 c d with
  | some r => .ok (st2, r.id)
  | none =>
    match insertSession st2 c d dl with
    | some (st3, id2) => .ok (st3, id2)
    | none => .error "session missing after insert-or-ignore"

/-- updRow does not change the key columns. -/
theorem updRow_key (c : Int) (d : String) (dl : Int) (r : SessionRow) :
    ((updRow c d dl r).chatId == c && (updRow c d dl r).sessionDate == d) =
      (r.chatId == c && r.sessionDate == d) := by
  unfold updRow
  split <;> rfl

/-- updRow does not change the row id. -/
theorem updRow_id (c : Int) (d : String) (dl : Int) (r : SessionRow) :
    (updRow c d dl r).id = r.id := by
  unfold updRow
  split <;> rfl

/-- Reading a pair after the UPDATE returns the updated image of the row
the pair had before. -/
theorem findSession_update (st : Store) (c : Int) (d : String) (dl : Int) :
    findSession (updateDeadlineForward st c d dl) c d =
      (findSession st c d).map (updRow c d dl) := by
  unfold findSession updateDeadlineForward
  rw [List.find?_map]
  have hp : ((fun r : SessionRow => r.chatId == c && r.sessionDate == d) ∘ updRow c d dl) =
      (fun r : SessionRow => r.chatId == c && r.sessionDate == d) := by
    funext r
    simpa [Function.comp] using updRow_key c d dl r
  rw [hp]

/-- With at most one row per pair, a find? hit pins the whole filter down
to that single row. -/
theorem filter_eq_single_of_find {st : Store} {c : Int} {d : String} {r : SessionRow}
    (hu : sessionCount st c d ≤ 1) (h : findSession st c d = some r) :
    st.sessions.filter (fun x => x.chatId == c && x.sessionDate == d) = [r] := by
  have h' := h
  unfold findSession at h'
  have hmem : r ∈ st.sessions := List.mem_of_find?_eq_some h'
  have hp := List.find?_some h'
  have hrf : r ∈ st.sessions.filter fun x => x.chatId == c && x.sessionDate == d :=
    List.mem_filter.mpr ⟨hmem, hp⟩
  unfold sessionCount at hu
  cases hf : st.sessions.filter fun x => x.chatId == c && x.sessionDate == d with
  | nil => rw [hf] at hrf; cases hrf
  | cons b tl =>
    rw [hf] at hu hrf
    have htl : tl = [] := by
      simp only [List.length_cons] at hu
      exact List.length_eq_zero.mp (by omega)
    subst htl
    have : r = b := by simpa using hrf
    rw [this]

/-- With at most one row for the pair and that row's deadline at least the
new one, the forward UPDATE touches nothing. -/
theorem update_noop_of_no_later {st : Store} {c : Int} {d : String} {r : SessionRow} {x dl : Int}
    (hu : sessionCount st c d ≤ 1) (h : findSession st c d = some r)
    (hx : r.signupDeadline = some x) (hle : dl ≤ x) :
    updateDeadlineForward st c d dl = st := by
  unfold updateDeadlineForward
  have hall : ∀ a ∈ st.sessions, updRow c d dl a = a := by
    intro a ha
    by_cases hpair : (a.chatId == c && a.sessionDate == d) = true
    · have : a ∈ st.sessions.filter fun y => y.chatId == c && y.sessionDate == d :=
        List.mem_filter.mpr ⟨ha, hpair⟩
      rw [filter_eq_single_of_find hu h] at this
      have har : a = r := by simpa using this
      subst har
      unfold updRow
      rw [hx]
      simp [not_lt.mpr hle]
    · unfold updRow
      simp only [Bool.not_eq_true] at hpair
      rw [hpair]
      simp
  have hmap : st.sessions.map (updRow c d dl) = st.sessions := by
    rw [List.map_congr_left hall, List.map_id']
  rw [hmap]

/-- Just after a fresh insert for the pair, the forward UPDATE touches
nothing: the new row already carries the new deadline and no other row
matches the pair. -/
theorem update_noop_after_fresh {st : Store} {c : Int} {d : String} (dl : Int)
    (h : findSession st c d = none) :
    updateDeadlineForward (freshInsertState st c d dl) c d dl = freshInsertState st c d dl := by
  have hnone := h
  unfold findSession at hnone
  rw [List.find?_eq_none] at hnone
  have hall : ∀ a ∈ (freshInsertState st c d dl).sessions, updRow c d dl a = a := by
    intro a ha
    simp only [freshInsertState] at ha
    rcases List.mem_append.mp ha with hold | hnew
    · have := hnone a hold
      unfold updRow
      simp only [Bool.not_eq_true] at this
      rw [this]
      simp
    · have ha' := List.mem_singleton.mp hnew
      subst ha'
      unfold updRow
      simp
  unfold updateDeadlineForward
  have hmap : (freshInsertState st c d dl).sessions.map (updRow c d dl) =
      (freshInsertState st c d dl).sessions := by
    rw [List.map_congr_left hall, List.map_id']
  rw [hmap]

/-- The part_004 variant on an existing pair always answers the existing
row id, over the (possibly deadline-updated) store. -/
theorem altCreateOrGet_existing {st : Store} {c : Int} {d : String} {r : SessionRow} (dl : Int)
    (h : findSession st c d = some r) :
    CreateOrGetTodaySession st c d dl = .ok (updateDeadlineForward st c d dl, r.id) := by
  unfold CreateOrGetTodaySession
  have hins : insertSession st c d dl = none := by
    unfold insertSession
    rw [h]
    simp
  rw [hins]
  simp only []
  rw [findSession_update, h]
  simp [updRow_id]

/-- The part_004 variant on a fresh pair creates the row with the supplied
deadline and returns the new id. -/
theorem altCreateOrGet_fresh {st : Store} {c : Int} {d : String} (dl : Int)
    (h : findSession st c d = none) :
    CreateOrGetTodaySession st c d dl = .ok (freshInsertState st c d dl, st.nextSessionRowId) := by
  unfold CreateOrGetTodaySession
  have hins : insertSession st c d dl = some (freshInsertState st c d dl, st.nextSessionRowId) := by
    unfold insertSession freshInsertState
    rw [h]
    simp
  rw [hins]
  simp only []
  rw [update_noop_after_fresh dl h, findSession_freshInsert h dl]

end AltStore

/-- Counterexample to claim C4 as stated: the store holds a session for
chat 1 on 2024-05-01 with stored deadline 100; a call with the strictly
later deadline 200 returns the store unchanged, so the stored deadline is
still 100 rather than the claimed new value 200. -/
theorem claim_C4_counterexample :
    CreateOrGetTodaySession
        (Store.mk [SessionRow.mk 1 1 "2024-05-01" none (some 100) 0] [] 2 1)
        1 "2024-05-01" 200 =
      .ok (Store.mk [SessionRow.mk 1 1 "2024-05-01" none (some 100) 0] [] 2 1, 1)
      ∧ (findSession
            (Store.mk [SessionRow.mk 1 1 "2024-05-01" none (some 100) 0] [] 2 1)
            1 "2024-05-01").map SessionRow.signupDeadline = some (some 100) := by
  constructor <;> rfl

/-- Claim C4 amended: the store variant at internal/db/db.go never touches
the stored deadline — an existing (chat, date) row is returned unchanged
whatever deadline is passed (so the deadline never regresses, but is also
never extended), and a fresh call creates the row with deadline
now + windowDuration.  The alternate variant of the same function in
src/unnamed/part_004 does implement the claimed monotone behaviour: a
strictly later deadline overwrites the stored one, an earlier-or-equal
deadline leaves the store unchanged, and fresh creation also uses
now + windowDuration. -/
theorem claim_C4_deadline_monotonicity_amended :
    (∀ (st : Store) (c : Int) (d : String) (r : SessionRow) (dl : Int),
        findSession st c d = some r →
        CreateOrGetTodaySession st c d dl = .ok (st, r.id))
    ∧ (∀ (st : Store) (c : Int) (d : String) (now w : Int),
        findSession st c d = none →
        CreateOrGetTodaySession st c d (inviteDeadline now w) =
          .ok (freshInsertState st c d (inviteDeadline now w), st.nextSessionRowId))
    ∧ (∀ (st : Store) (c : Int) (d : String) (r : SessionRow) (x dl : Int),
        sessionCount st c d ≤ 1 → findSession st c d = some r →
        r.signupDeadline = some x → x < dl →
        AltStore.CreateOrGetTodaySession st c d dl =
            .ok (AltStore.updateDeadlineForward st c d dl, r.id)
          ∧ findSession (AltStore.updateDeadlineForward st c d dl) c d =
              some { r with signupDeadline := some dl })
    ∧ (∀ (st : Store) (c : Int) (d : String) (r : SessionRow) (x dl : Int),
        sessionCount st c d ≤ 1 → findSession st c d = some r →
        r.signupDeadline = some x → dl ≤ x →
        AltStore.CreateOrGetTodaySession st c d dl = .ok (st, r.id))
    ∧ (∀ (st : Store) (c : Int) (d : String) (now w : Int),
        findSession st c d = none →
        AltStore.CreateOrGetTodaySession st c d (inviteDeadline now w) =
          .ok (freshInsertState st c d (inviteDeadline now w), st.nextSessionRowId)) := by
  refine ⟨?_, ?_, ?_, ?_, ?_⟩
  · intro st c d r dl h
    exact createOrGet_existing h dl
  · intro st c d now w h
    simpa [freshInsertState] using createOrGet_fresh h (inviteDeadline now w)
  · intro st c d r x dl hu h hx hlt
    refine ⟨AltStore.altCreateOrGet_existing dl h, ?_⟩
    rw [AltStore.findSession_update, h]
    have hpair := List.find?_some (by unfold findSession at h; exact h)
    simp [AltStore.updRow, hx, hpair, hlt]
  · intro st c d r x dl hu h hx hle
    have := AltStore.altCreateOrGet_existing dl h
    rwa [AltStore.update_noop_of_no_later hu h hx hle] at this
  · intro st c d now w h
    exact AltStore.altCreateOrGet_fresh (inviteDeadline now w) h

/-- Witness for the amended claim C4, instantiating every conjunct on a
concrete one-row (or empty) store. -/
theorem claim_C4_deadline_monotonicity_amended_witness :
    CreateOrGetTodaySession
        (Store.mk [SessionRow.mk 1 1 "2024-05-01" none (some 100) 0] [] 2 1)
        1 "2024-05-01" 200 =
      .ok (Store.mk [SessionRow.mk 1 1 "2024-05-01" none (some 100) 0] [] 2 1, 1)
    ∧ CreateOrGetTodaySession (Store.mk [] [] 1 1) 1 "2024-05-01" (inviteDeadline 5 0) =
        .ok (freshInsertState (Store.mk [] [] 1 1) 1 "2024-05-01" (inviteDeadline 5 0), 1)
    ∧ AltStore.CreateOrGetTodaySession
          (Store.mk [SessionRow.mk 1 1 "2024-05-01" none (some 100) 0] [] 2 1)
          1 "2024-05-01" 200 =
        .ok (AltStore.updateDeadlineForward
              (Store.mk [SessionRow.mk 1 1 "2024-05-01" none (some 100) 0] [] 2 1)
              1 "2024-05-01" 200, 1)
    ∧ AltStore.CreateOrGetTodaySession
          (Store.mk [SessionRow.mk 1 1 "2024-05-01" none (some 100) 0] [] 2 1)
          1 "2024-05-01" 50 =
        .ok (Store.mk [SessionRow.mk 1 1 "2024-05-01" none (some 100) 0] [] 2 1, 1) := by
  refine ⟨?_, ?_, ?_, ?_⟩
  · exact claim_C4_deadline_monotonicity_amended.1
      (Store.mk [SessionRow.mk 1 1 "2024-05-01" none (some 100) 0] [] 2 1)
      1 "2024-05-01" (SessionRow.mk 1 1 "2024-05-01" none (some 100) 0) 200 rfl
  · exact claim_C4_deadline_monotonicity_amended.2.1 (Store.mk [] [] 1 1) 1 "2024-05-01" 5 0 rfl
  · exact (claim_C4_deadline_monotonicity_amended.2.2.1
      (Store.mk [SessionRow.mk 1 1 "2024-05-01" none (some 100) 0] [] 2 1)
      1 "2024-05-01" (SessionRow.mk 1 1 "2024-05-01" none (some 100) 0) 100 200
      (by decide) rfl rfl (by decide)).1
  · exact claim_C4_deadline_monotonicity_amended.2.2.2.1
      (Store.mk [SessionRow.mk 1 1 "2024-05-01" none (some 100) 0] [] 2 1)
      1 "2024-05-01" (SessionRow.mk 1 1 "2024-05-01" none (some 100) 0) 100 50
      (by decide) rfl rfl (by decide)

/-!
The group partitioner (internal/logic/pairs.go).

MakeGroups seeds a PRNG from time.Now().UnixNano(), shuffles the user
slice in place with rand.Shuffle (a Fisher-Yates walk: for i from n-1
down to 1, swap positions i and j where j is drawn uniformly from
[0, i]), and then walks the shuffled slice left to right consuming
chunks.  The PRNG of the Go standard library is an external dependency;
the sequence of drawn swap targets is fully determined by the seed, and
is modelled here as an explicit argument js : Nat to Nat giving the draw
made at each index i.  In the Go function this sequence is a function of
the wall clock, not of any caller-supplied parameter.
-/

/-- logic.User. -/
structure User where
  id : Int
  name : String
  deriving DecidableEq

/-- logic.Group. -/
structure Group where
  members : List User
  deriving DecidableEq

/-- users[i], users[j] = users[j], users[i]: the swap performed by the
shuffle callback; identity when an index is out of range (never the case
inside the shuffle loop). -/
def swapIdx (l : List α) (i j : Nat) : List α :=
  match l[i]?, l[j]? with
  | some a, some b => (l.set i b).set j a
  | _, _ => l

/-- The rand.Shuffle loop: for i from n-1 down to 1, swap positions i and
js i.  The first argument is the loop counter i. -/
def fyAux (js : Nat → Nat) : Nat → List α → List α
  | 0, l => l
  | i + 1, l => fyAux js i (swapIdx l (i + 1) (js (i + 1)))

/-- r.Shuffle(n, swap) over the whole list. -/
def shuffle (js : Nat → Nat) (l : List α) : List α :=
  fyAux js (l.length - 1) l

/-- The chunk-consuming loop of MakeGroups, with the groups accumulated
so far: rem = 1 merges the lone user into the most recent group (or forms
a singleton group when none exists); rem = 2 or rem = 4 takes a pair;
otherwise (rem at least 3 and not 4) takes a triple. -/
def groupsLoop : List Group → List User → List Group
  | acc, [] => acc
  | acc, [u] =>
    match acc.getLast? with
    | some g => acc.dropLast ++ [Group.mk (g.members ++ [u])]
    | none => [Group.mk [u]]
  | acc, [u, v] => acc ++ [Group.mk [u, v]]
  | acc, [u, v, w, x] => groupsLoop (acc ++ [Group.mk [u, v]]) [w, x]
  | acc, u :: v :: w :: rest => groupsLoop (acc ++ [Group.mk [u, v, w]]) rest

/-- logic.MakeGroups: empty input short-circuits; otherwise shuffle then
chunk.  js is the swap-target sequence of the internal clock-seeded PRNG
(see the section comment); it is not a parameter of the Go function. -/
def MakeGroups (js : Nat → Nat) (users : List User) : List Group :=
  if users.length = 0 then [] else groupsLoop [] (shuffle js users)

section ShufflePerm

/-- Helper: replacing a known element and re-consing it is a permutation. -/
theorem cons_set_perm : ∀ (t : List α) (m : Nat) (b x : α),
    t[m]? = some b → List.Perm (b :: t.set m x) (x :: t)
  | [], m, b, x, h => by simp at h
  | y :: t, 0, b, x, h => by
    have hb : y = b := by simpa using h
    rw [← hb]
    simpa using List.Perm.swap x y t
  | y :: t, m + 1, b, x, h => by
    simp only [List.getElem?_cons_succ] at h
    simp only [List.set_cons_succ]
    exact (List.Perm.swap y b (t.set m x)).trans
      ((List.Perm.cons y (cons_set_perm t m b x h)).trans (List.Perm.swap x y t))

/-- Helper: writing each of two known elements over the other is a
permutation (the in-place swap). -/
theorem set_set_perm : ∀ (l : List α) (i j : Nat) (a b : α),
    l[i]? = some a → l[j]? = some b → List.Perm ((l.set i b).set j a) l
  | [], i, j, a, b, hi, _ => by simp at hi
  | x :: t, 0, 0, a, b, hi, hj => by
    have ha : x = a := by simpa using hi
    have hb : x = b := by simpa using hj
    rw [← ha, ← hb]
    simp only [List.set_cons_zero]
    exact List.Perm.refl _
  | x :: t, 0, j + 1, a, b, hi, hj => by
    have ha : x = a := by simpa using hi
    simp only [List.getElem?_cons_succ] at hj
    rw [ha]
    simpa using cons_set_perm t j b a hj
  | x :: t, i + 1, 0, a, b, hi, hj => by
    have hb : x = b := by simpa using hj
    simp only [List.getElem?_cons_succ] at hi
    rw [hb]
    simpa using cons_set_perm t i a b hi
  | x :: t, i + 1, j + 1, a, b, hi, hj => by
    simp only [List.getElem?_cons_succ] at hi hj
    simpa using List.Perm.cons x (set_set_perm t i j a b hi hj)

/-- The swap callback permutes the list. -/
theorem swapIdx_perm (l : List α) (i j : Nat) : List.Perm (swapIdx l i j) l := by
  unfold swapIdx
  cases hi : l[i]? with
  | none => exact List.Perm.refl l
  | some a =>
    cases hj : l[j]? with
    | none => exact List.Perm.refl l
    | some b => exact set_set_perm l i j a b hi hj

/-- The whole Fisher-Yates walk permutes the list. -/
theorem fyAux_perm (js : Nat → Nat) : ∀ (i : Nat) (l : List α), List.Perm (fyAux js i l) l
  | 0, l => List.Perm.refl l
  | i + 1, l =>
    (fyAux_perm js i (swapIdx l (i + 1) (js (i + 1)))).trans
      (swapIdx_perm l (i + 1) (js (i + 1)))

/-- shuffle permutes its input. -/
theorem shuffle_perm (js : Nat → Nat) (l : List α) : List.Perm (shuffle js l) l :=
  fyAux_perm js (l.length - 1) l

end ShufflePerm

section Chunking

/-- The chunk sizes taken by the loop of MakeGroups, written as a plain
recursion on the remaining suffix: this is the closed form of groupsLoop
started from an empty accumulator, used for reasoning. -/
def chunks : List User → List Group
  | [] => []
  | [u] => [Group.mk [u]]
  | [u, v] => [Group.mk [u, v]]
  | [u, v, w] => [Group.mk [u, v, w]]
  | [u, v, w, x] => [Group.mk [u, v], Group.mk [w, x]]
  | u :: v :: w :: x :: y :: rest => Group.mk [u, v, w] :: chunks (x :: y :: rest)

/-- The loop equals accumulator-plus-chunks whenever the suffix is not a
lone user (the lone-user merge branch is unreachable from the inputs the
function ever produces, except for the whole input being a singleton). -/
theorem groupsLoop_eq_chunks : ∀ (l : List User) (acc : List Group),
    l.length ≠ 1 → groupsLoop acc l = acc ++ chunks l
  | [], acc, _ => by simp [groupsLoop, chunks]
  | [u], _, h => by simp at h
  | [u, v], acc, _ => by simp [groupsLoop, chunks]
  | [u, v, w], acc, _ => by
    rw [show groupsLoop acc [u, v, w] = groupsLoop (acc ++ [Group.mk [u, v, w]]) [] from rfl]
    simp [groupsLoop, chunks]
  | [u, v, w, x], acc, _ => by
    rw [show groupsLoop acc [u, v, w, x] = groupsLoop (acc ++ [Group.mk [u, v]]) [w, x] from rfl]
    rw [groupsLoop_eq_chunks [w, x] (acc ++ [Group.mk [u, v]]) (by simp)]
    simp [chunks]
  | u :: v :: w :: x :: y :: rest, acc, _ => by
    rw [show groupsLoop acc (u :: v :: w :: x :: y :: rest) =
        groupsLoop (acc ++ [Group.mk [u, v, w]]) (x :: y :: rest) from rfl]
    rw [groupsLoop_eq_chunks (x :: y :: rest) (acc ++ [Group.mk [u, v, w]]) (by simp)]
    simp [chunks]

/-- From the empty accumulator the loop is exactly chunks, for every
input including the singleton. -/
theorem groupsLoop_nil_eq_chunks (l : List User) : groupsLoop [] l = chunks l := by
  match l with
  | [u] => rfl
  | [] => rfl
  | u :: v :: rest => simpa using groupsLoop_eq_chunks (u :: v :: rest) [] (by simp)

/-- Concatenating the produced groups gives back the consumed list. -/
theorem chunks_flatten : ∀ l : List User, ((chunks l).map Group.members).flatten = l
  | [] => rfl
  | [u] => rfl
  | [u, v] => rfl
  | [u, v, w] => rfl
  | [u, v, w, x] => rfl
  | u :: v :: w :: x :: y :: rest => by
    have ih := chunks_flatten (x :: y :: rest)
    simp only [chunks, List.map_cons, List.flatten_cons, ih]
    rfl

/-- For an input of at least two users every chunk has size 2 or 3. -/
theorem chunks_sizes : ∀ l : List User, 2 ≤ l.length →
    ∀ g ∈ chunks l, g.members.length = 2 ∨ g.members.length = 3
  | [], h => by simp at h
  | [u], h => by simp at h
  | [u, v], _ => by
    intro g hg
    simp only [chunks, List.mem_singleton] at hg
    subst hg
    left; rfl
  | [u, v, w], _ => by
    intro g hg
    simp only [chunks, List.mem_singleton] at hg
    subst hg
    right; rfl
  | [u, v, w, x], _ => by
    intro g hg
    simp only [chunks, List.mem_cons, List.not_mem_nil, or_false] at hg
    rcases hg with hg | hg <;> (subst hg; left; rfl)
  | u :: v :: w :: x :: y :: rest, _ => by
    intro g hg
    simp only [chunks, List.mem_cons] at hg
    rcases hg with hg | hg
    · subst hg; right; rfl
    · exact chunks_sizes (x :: y :: rest) (by simp) g hg

end Chunking

/-- Claim C2: for at least two users, every group produced by MakeGroups
has size 2 or 3, the concatenation of the groups is a permutation of the
input (each member appears exactly as often as it did in the input, so
exactly once for member lists), and for duplicate-free input the groups
are pairwise disjoint; a singleton input gives one group of size 1; an
empty input gives no groups.  js ranges over every possible swap-target
sequence of the internal shuffle. -/
theorem claim_C2_group_sizes_partition (js : Nat → Nat) (users : List User) :
    (2 ≤ users.length →
        (∀ g ∈ MakeGroups js users, g.members.length = 2 ∨ g.members.length = 3)
          ∧ List.Perm (((MakeGroups js users).map Group.members).flatten) users
          ∧ (users.Nodup →
              (MakeGroups js users).Pairwise fun g1 g2 => g1.members.Disjoint g2.members))
      ∧ (∀ u : User, users = [u] → MakeGroups js users = [Group.mk [u]])
      ∧ (users = [] → MakeGroups js users = []) := by
  refine ⟨?_, ?_, ?_⟩
  · intro h2
    have hne : users.length ≠ 0 := by omega
    have hmk : MakeGroups js users = chunks (shuffle js users) := by
      unfold MakeGroups
      rw [if_neg hne, groupsLoop_nil_eq_chunks]
    have hlen : (shuffle js users).length = users.length := (shuffle_perm js users).length_eq
    have hflat : ((chunks (shuffle js users)).map Group.members).flatten = shuffle js users :=
      chunks_flatten _
    refine ⟨?_, ?_, ?_⟩
    · intro g hg
      exact chunks_sizes (shuffle js users) (by omega) g (by rwa [hmk] at hg)
    · rw [hmk, hflat]
      exact shuffle_perm js users
    · intro hnd
      have hfn : (((MakeGroups js users).map Group.members).flatten).Nodup := by
        rw [hmk, hflat]
        exact ((shuffle_perm js users).nodup_iff).mpr hnd
      have hsplit := List.nodup_flatten.mp hfn
      exact (List.pairwise_map).mp hsplit.2
  · intro u hu
    subst hu
    rfl
  · intro hu
    subst hu
    rfl

/-- Witness for claim C2 on a concrete duplicate-free list of four users
and a concrete swap-target sequence. -/
theorem claim_C2_group_sizes_partition_witness :
    (∀ g ∈ MakeGroups (fun i => i)
        [User.mk 1 "a", User.mk 2 "b", User.mk 3 "c", User.mk 4 "d"],
        g.members.length = 2 ∨ g.members.length = 3)
      ∧ List.Perm (((MakeGroups (fun i => i)
            [User.mk 1 "a", User.mk 2 "b", User.mk 3 "c", User.mk 4 "d"]).map
              Group.members).flatten)
          [User.mk 1 "a", User.mk 2 "b", User.mk 3 "c", User.mk 4 "d"]
      ∧ (MakeGroups (fun i => i)
          [User.mk 1 "a", User.mk 2 "b", User.mk 3 "c", User.mk 4 "d"]).Pairwise
            (fun g1 g2 => g1.members.Disjoint g2.members) := by
  have h := (claim_C2_group_sizes_partition (fun i => i)
    [User.mk 1 "a", User.mk 2 "b", User.mk 3 "c", User.mk 4 "d"]).1 (by decide)
  exact ⟨h.1, h.2.1, h.2.2 (by decide)⟩

/-- Counterexample to claim C5 as stated: the grouping produced by
MakeGroups for one and the same input list differs between two draw
sequences of the internal clock-seeded PRNG, and the Go function offers
the caller no seed argument that could fix that sequence: the shuffle
source is not a parameter of the function. -/
theorem claim_C5_counterexample :
    MakeGroups (fun i => i)
        [User.mk 1 "a", User.mk 2 "b", User.mk 3 "c", User.mk 4 "d"] ≠
      MakeGroups (fun i => if i = 2 then 1 else i)
        [User.mk 1 "a", User.mk 2 "b", User.mk 3 "c", User.mk 4 "d"] := by
  decide

/-- Claim C5 amended: MakeGroups is deterministic given the realized
shuffle: all of its randomness is confined to the initial Fisher-Yates
pass, so whenever two invocations shuffle to the same sequence — in
particular for a fixed seed, which fixes the swap-target sequence — they
produce the same grouping.  The seed itself, however, is not a parameter
of the Go function: it is taken from time.Now().UnixNano() internally. -/
theorem claim_C5_seed_determinism_amended (js jsB : Nat → Nat) (users usersB : List User)
    (h : shuffle js users = shuffle jsB usersB) :
    MakeGroups js users = MakeGroups jsB usersB := by
  have h1 : (shuffle js users).length = users.length := (shuffle_perm js users).length_eq
  have h2 : (shuffle jsB usersB).length = usersB.length := (shuffle_perm jsB usersB).length_eq
  have hlen : users.length = usersB.length := by rw [← h1, ← h2, h]
  unfold MakeGroups
  rw [hlen, h]

/-- Witness for the amended claim C5 at a concrete input: two draw
sequences realizing the same shuffle yield the same grouping. -/
theorem claim_C5_seed_determinism_amended_witness :
    MakeGroups (fun i => i) [User.mk 1 "a", User.mk 2 "b"] =
      MakeGroups (fun i => i + 1 - 1) [User.mk 1 "a", User.mk 2 "b"] :=
  claim_C5_seed_determinism_amended (fun i => i) (fun i => i + 1 - 1)
    [User.mk 1 "a", User.mk 2 "b"] [User.mk 1 "a", User.mk 2 "b"] (by decide)

/-! Remaining store operations used by the bot layer. -/

/-- SELECT ... FROM daily_sessions WHERE id=?. -/
def findSessionById (st : Store) (id : Int) : Option SessionRow :=
  st.sessions.find? fun r => r.id == id

/-- Store.GetSessionInfo: chat id and date of a session, none modelling
the no-rows error. -/
def GetSessionInfo (st : Store) (id : Int) : Option (Int × String) :=
  (findSessionById st id).map fun r => (r.chatId, r.sessionDate)

/-- SELECT COUNT(1) FROM participants WHERE session_id=? AND user_id=?. -/
def participantCount (st : Store) (sessionId userId : Int) : Nat :=
  (st.participants.filter fun p => p.sessionId == sessionId && p.userId == userId).length

/-- Store.IsParticipant: count greater than zero. -/
def IsParticipant (st : Store) (sessionId userId : Int) : Bool :=
  decide (0 < participantCount st sessionId userId)

/-- Store.AddParticipant: INSERT INTO participants; none models the
violation of UNIQUE(session_id, user_id), which fires exactly when a row
for the pair already exists. -/
def AddParticipant (st : Store) (sessionId userId : Int) (username displayName : String) :
    Option Store :=
  if IsParticipant st sessionId userId then none
  else
    some { st with
             participants := st.participants ++
               [{ id := st.nextParticipantRowId, sessionId := sessionId, userId := userId,
                  username := username, displayName := displayName }],
             nextParticipantRowId := st.nextParticipantRowId + 1 }

/-- Store.GetParticipants: rows of a session in id order (insertion
order under the AUTOINCREMENT discipline). -/
def GetParticipants (st : Store) (sessionId : Int) : List ParticipantRow :=
  st.participants.filter fun p => p.sessionId == sessionId

/-- Store.CloseSession: UPDATE daily_sessions SET closed=1 WHERE id=?. -/
def CloseSession (st : Store) (id : Int) : Store :=
  { st with
      sessions := st.sessions.map fun r => if r.id == id then { r with closed := 1 } else r }

/-- Store.SessionOpen: none models the row-read error; otherwise false
when the closed flag is set or now is strictly after the deadline (a NULL
deadline is coalesced to now, hence counts as open), else true. -/
def SessionOpen (st : Store) (id : Int) (now : Int) : Option Bool :=
  match findSessionById st id with
  | none => none
  | some r =>
    if r.closed ≠ 0 then some false
    else if r.signupDeadline.getD now < now then some false
    else some true

/-! The bot layer (bot.go): the join callback and CloseAndPublish.  The
outbound Telegram transport is opaque; what the bot sends is recorded in
an outbox, and the callback acknowledgment is returned. -/

/-- The three user-visible acknowledgments of a join attempt. -/
inductive JoinAck where
  | joined
  | alreadyIn
  | windowClosed
  deriving DecidableEq

/-- The display-name resolution of Bot.onCallback: first and last name
joined by a space and trimmed, falling back to the username. -/
def resolveJoinName (firstName lastName userName : String) : String :=
  let name := (firstName ++ " " ++ lastName).trim
  if name = "" then userName else name

/-- The join branch of Bot.onCallback: reject when SessionOpen reports a
definite false (a read error falls through, as in the Go code); then the
duplicate check; then the insert, whose error is ignored. -/
def onCallbackJoin (st : Store) (sessionId userId : Int)
    (firstName lastName userName : String) (now : Int) : Store × JoinAck :=
  let name := resolveJoinName firstName lastName userName
  match SessionOpen st sessionId now with
  | some false => (st, .windowClosed)
  | _ =>
    if !IsParticipant st sessionId userId then
      ((AddParticipant st sessionId userId userName name).getD st, .joined)
    else
      (st, .alreadyIn)

/-- One outbound chat message, up to the literal Russian text: either the
no-participants notice or the group-results announcement. -/
inductive Msg where
  | noParticipants (chatId : Int)
  | results (chatId : Int) (groups : List Group)
  deriving DecidableEq

/-- Bot-visible state: the store plus the messages sent so far. -/
structure BotState where
  store : Store
  outbox : List Msg
  deriving DecidableEq

/-- The placeholder participants injected by test mode. -/
def fakeParticipants : List (Int × String × String) :=
  [(900001, "", "Тестовый участник 1"),
   (900002, "", "Тестовый участник 2"),
   (900003, "", "Тестовый участник 3"),
   (900004, "", "Тестовый участник 4")]

/-- The participant-to-user conversion of Bot.CloseAndPublish: display
name, else @username, else a fallback synthesized from the id. -/
def participantUser (p : ParticipantRow) : User :=
  let name := p.displayName
  let name := if name = "" ∧ p.username ≠ "" then "@" ++ p.username else name
  let name := if name = "" then "id:" ++ toString p.userId else name
  { id := p.userId, name := name }

/-- Bot.CloseAndPublish: read the session info (bail out on error), read
the participants, optionally pad with fakes in test mode, then either
post the no-participants notice or run the partitioner and post the
results, and finally set the closed flag.  js is the swap-target
sequence of the partitioner PRNG at this invocation. -/
def CloseAndPublish (testMode : Bool) (js : Nat → Nat) (bs : BotState) (sessionId : Int) :
    BotState :=
  match GetSessionInfo bs.store sessionId with
  | none => bs
  | some (chatId, _date) =>
    let parts := GetParticipants bs.store sessionId
    let stParts :=
      if testMode ∧ parts.length = 1 then
        let st2 := fakeParticipants.foldl
          (fun s f => (AddParticipant s sessionId f.1 f.2.1 f.2.2).getD s) bs.store
        (st2, GetParticipants st2 sessionId)
      else (bs.store, parts)
    if stParts.2.length = 0 then
      { store := CloseSession stParts.1 sessionId,
        outbox := bs.outbox ++ [Msg.noParticipants chatId] }
    else
      { store := CloseSession stParts.1 sessionId,
        outbox := bs.outbox ++ [Msg.results chatId (MakeGroups js (stParts.2.map participantUser))] }

/-- Claim C6: a join attempt on a session whose closed flag is set, or
whose stored deadline lies strictly before now, is rejected with the
window-closed acknowledgment and leaves the store unchanged — the
deadline alone suffices even with the closed flag still 0; conversely
with closed = 0 and now at most the deadline the session counts as
open. -/
theorem claim_C6_window_closed_rejection
    (st : Store) (sessionId userId : Int) (firstName lastName userName : String)
    (now : Int) (r : SessionRow) (dl : Int)
    (hr : findSessionById st sessionId = some r) (hdl : r.signupDeadline = some dl) :
    ((r.closed ≠ 0 ∨ dl < now) →
        onCallbackJoin st sessionId userId firstName lastName userName now =
          (st, .windowClosed))
      ∧ (r.closed = 0 → now ≤ dl → SessionOpen st sessionId now = some true) := by
  constructor
  · intro hrej
    have hopen : SessionOpen st sessionId now = some false := by
      rcases hrej with hc | hd
      · simp [SessionOpen, hr, hc]
      · by_cases hc : r.closed ≠ 0
        · simp [SessionOpen, hr, hc]
        · simp [SessionOpen, hr, hc, hdl, hd]
    unfold onCallbackJoin
    rw [hopen]
  · intro hc hle
    simp [SessionOpen, hr, hc, hdl, not_lt.mpr hle]

/-- Witness for claim C6: a concrete closed-flag session and a concrete
expired-deadline session both reject a join, and a concrete open session
counts as open. -/
theorem claim_C6_window_closed_rejection_witness :
    onCallbackJoin (Store.mk [SessionRow.mk 1 5 "2024-05-01" none (some 100) 0] [] 2 1)
        1 10 "Ann" "Lee" "ann" 101 =
      (Store.mk [SessionRow.mk 1 5 "2024-05-01" none (some 100) 0] [] 2 1, .windowClosed)
      ∧ SessionOpen (Store.mk [SessionRow.mk 1 5 "2024-05-01" none (some 100) 0] [] 2 1)
          1 100 = some true := by
  constructor
  · exact (claim_C6_window_closed_rejection
      (Store.mk [SessionRow.mk 1 5 "2024-05-01" none (some 100) 0] [] 2 1)
      1 10 "Ann" "Lee" "ann" 101
      (SessionRow.mk 1 5 "2024-05-01" none (some 100) 0) 100 rfl rfl).1
      (Or.inr (by decide))
  · exact (claim_C6_window_closed_rejection
      (Store.mk [SessionRow.mk 1 5 "2024-05-01" none (some 100) 0] [] 2 1)
      1 10 "Ann" "Lee" "ann" 100
      (SessionRow.mk 1 5 "2024-05-01" none (some 100) 0) 100 rfl rfl).2
      rfl (by decide)

/-- Claim C7: on an open session, a member who already has a participant
row gets the already-joined acknowledgment and the store is unchanged (no
new row); and every join attempt preserves at-most-one participant row
per (session, member) pair. -/
theorem claim_C7_already_joined_no_duplicate :
    (∀ (st : Store) (sessionId userId : Int) (fn ln un : String) (now : Int),
        SessionOpen st sessionId now = some true →
        IsParticipant st sessionId userId = true →
        onCallbackJoin st sessionId userId fn ln un now = (st, .alreadyIn))
      ∧ (∀ (st : Store) (sessionId userId : Int) (fn ln un : String) (now : Int),
          participantCount st sessionId userId ≤ 1 →
          participantCount (onCallbackJoin st sessionId userId fn ln un now).1
            sessionId userId ≤ 1) := by
  constructor
  · intro st sessionId userId fn ln un now hopen hin
    unfold onCallbackJoin
    rw [hopen, hin]
    rfl
  · intro st sessionId userId fn ln un now hle
    unfold onCallbackJoin
    cases hopen : SessionOpen st sessionId now with
    | some b =>
      cases b with
      | false => exact hle
      | true =>
        by_cases hin : IsParticipant st sessionId userId
        · simp only [hin, Bool.not_true, Bool.false_eq_true, if_neg]
          simpa using hle
        · have hc0 : participantCount st sessionId userId = 0 := by
            unfold IsParticipant at hin
            simpa using hin
          simp only [Bool.not_eq_true] at hin
          rw [hin]
          simp only [Bool.not_false, if_pos]
          unfold AddParticipant
          rw [show IsParticipant st sessionId userId = false from hin]
          simp only [Bool.false_eq_true, if_neg, Option.getD_some]
          unfold participantCount at hc0 ⊢
          simp [List.filter_append, hc0]
    | none =>
      by_cases hin : IsParticipant st sessionId userId
      · simp only [hin, Bool.not_true, Bool.false_eq_true, if_neg]
        simpa using hle
      · have hc0 : participantCount st sessionId userId = 0 := by
          unfold IsParticipant at hin
          simpa using hin
        simp only [Bool.not_eq_true] at hin
        rw [hin]
        simp only [Bool.not_false, if_pos]
        unfold AddParticipant
        rw [show IsParticipant st sessionId userId = false from hin]
        simp only [Bool.false_eq_true, if_neg, Option.getD_some]
        unfold participantCount at hc0 ⊢
        simp [List.filter_append, hc0]

/-- Witness for claim C7: in a concrete open session, user 10 already has
a row; the repeat join acknowledges already-joined and adds nothing, and
uniqueness is preserved. -/
theorem claim_C7_already_joined_no_duplicate_witness :
    onCallbackJoin
        (Store.mk [SessionRow.mk 1 5 "2024-05-01" none (some 100) 0]
          [ParticipantRow.mk 1 1 10 "ann" "Ann Lee"] 2 2)
        1 10 "Ann" "Lee" "ann" 50 =
      (Store.mk [SessionRow.mk 1 5 "2024-05-01" none (some 100) 0]
          [ParticipantRow.mk 1 1 10 "ann" "Ann Lee"] 2 2, .alreadyIn)
      ∧ participantCount
          (onCallbackJoin
            (Store.mk [SessionRow.mk 1 5 "2024-05-01" none (some 100) 0]
              [ParticipantRow.mk 1 1 10 "ann" "Ann Lee"] 2 2)
            1 10 "Ann" "Lee" "ann" 50).1 1 10 ≤ 1 := by
  constructor
  · exact claim_C7_already_joined_no_duplicate.1
      (Store.mk [SessionRow.mk 1 5 "2024-05-01" none (some 100) 0]
        [ParticipantRow.mk 1 1 10 "ann" "Ann Lee"] 2 2)
      1 10 "Ann" "Lee" "ann" 50 (by decide) (by decide)
  · exact claim_C7_already_joined_no_duplicate.2
      (Store.mk [SessionRow.mk 1 5 "2024-05-01" none (some 100) 0]
        [ParticipantRow.mk 1 1 10 "ann" "Ann Lee"] 2 2)
      1 10 "Ann" "Lee" "ann" 50 (by decide)

section CloseIdempotence

/-- Closing a session does not touch the participants table. -/
theorem GetParticipants_close (st : Store) (i sid : Int) :
    GetParticipants (CloseSession st i) sid = GetParticipants st sid := rfl

/-- Reading a session row after CloseSession sees the closed-flag image
of the row read before. -/
theorem findSessionById_close (st : Store) (i sid : Int) :
    findSessionById (CloseSession st i) sid =
      (findSessionById st sid).map fun r => if r.id == i then { r with closed := 1 } else r := by
  show (st.sessions.map fun r => if r.id == i then { r with closed := 1 } else r).find?
      (fun r => r.id == sid) = _
  rw [List.find?_map]
  have hp : ((fun r : SessionRow => r.id == sid) ∘
      fun r => if r.id == i then { r with closed := 1 } else r) =
      fun r : SessionRow => r.id == sid := by
    funext r
    simp only [Function.comp]
    split <;> rfl
  rw [hp]
  rfl

/-- Closing a session does not change its chat and date. -/
theorem GetSessionInfo_close (st : Store) (i sid : Int) :
    GetSessionInfo (CloseSession st i) sid = GetSessionInfo st sid := by
  unfold GetSessionInfo
  rw [findSessionById_close]
  cases findSessionById st sid with
  | none => rfl
  | some r =>
    simp only [Option.map_some']
    refine congrArg some ?_
    split <;> rfl

/-- CloseSession is idempotent on the store. -/
theorem CloseSession_idem (st : Store) (i : Int) :
    CloseSession (CloseSession st i) i = CloseSession st i := by
  have hmap : ((st.sessions.map fun r => if r.id == i then { r with closed := 1 } else r).map
      fun r => if r.id == i then { r with closed := 1 } else r) =
      st.sessions.map fun r => if r.id == i then { r with closed := 1 } else r := by
    rw [List.map_map]
    apply List.map_congr_left
    intro r _
    simp only [Function.comp]
    by_cases h : (r.id == i) = true
    · simp [h]
    · simp [h]
  simp only [CloseSession]
  rw [hmap]

/-- Counterexample to claim C3 as stated: on a session whose closed flag
is already set (closed = 1) and which has two participants, a second
CloseAndPublish still re-runs the partitioner and publishes a second
results announcement: the outbox grows from one message to two, so the
call is not a no-op. -/
theorem claim_C3_counterexample :
    ((Store.mk [SessionRow.mk 1 5 "2024-05-01" none (some 0) 1]
        [ParticipantRow.mk 1 1 10 "a" "A", ParticipantRow.mk 2 1 11 "b" "B"] 2 3).sessions.map
      SessionRow.closed = [1])
    ∧ (CloseAndPublish false (fun i => i)
        (BotState.mk (Store.mk [SessionRow.mk 1 5 "2024-05-01" none (some 0) 1]
          [ParticipantRow.mk 1 1 10 "a" "A", ParticipantRow.mk 2 1 11 "b" "B"] 2 3) [])
        1).outbox.length = 1
    ∧ (CloseAndPublish false (fun i => i)
        (CloseAndPublish false (fun i => i)
          (BotState.mk (Store.mk [SessionRow.mk 1 5 "2024-05-01" none (some 0) 1]
            [ParticipantRow.mk 1 1 10 "a" "A", ParticipantRow.mk 2 1 11 "b" "B"] 2 3) [])
          1)
        1).outbox.length = 2 := by
  refine ⟨rfl, rfl, ?_⟩
  decide

/-- Claim C3 amended: CloseAndPublish does not consult the closed flag,
so a repeat call does re-run the partitioner and does publish another
announcement; what does hold is store-level idempotence: the store after
the second call equals the store after the first (CloseSession is
idempotent and, outside test mode, no rows are written), for any draw
sequences of the two invocations.  System-wide the repeat is prevented
one level up: the closer query selects only sessions with closed = 0. -/
theorem closeAndPublish_nonTest (js : Nat → Nat) (bs : BotState) (sessionId chatId : Int)
    (date : String) (hinfo : GetSessionInfo bs.store sessionId = some (chatId, date)) :
    CloseAndPublish false js bs sessionId =
      if (GetParticipants bs.store sessionId).length = 0 then
        { store := CloseSession bs.store sessionId,
          outbox := bs.outbox ++ [Msg.noParticipants chatId] }
      else
        { store := CloseSession bs.store sessionId,
          outbox := bs.outbox ++ [Msg.results chatId
            (MakeGroups js ((GetParticipants bs.store sessionId).map participantUser))] } := by
  unfold CloseAndPublish
  rw [hinfo]
  simp

theorem claim_C3_close_idempotent_amended (js jsB : Nat → Nat) (bs : BotState)
    (sessionId : Int) :
    (CloseAndPublish false jsB (CloseAndPublish false js bs sessionId) sessionId).store =
      (CloseAndPublish false js bs sessionId).store := by
  cases hinfo : GetSessionInfo bs.store sessionId with
  | none =>
    have h1 : CloseAndPublish false js bs sessionId = bs := by
      unfold CloseAndPublish
      rw [hinfo]
    have h2 : CloseAndPublish false jsB bs sessionId = bs := by
      unfold CloseAndPublish
      rw [hinfo]
    rw [h1, h2]
  | some cd =>
    obtain ⟨chatId, date⟩ := cd
    have hinfo2 : GetSessionInfo (CloseSession bs.store sessionId) sessionId =
        some (chatId, date) := by
      rw [GetSessionInfo_close, hinfo]
    rw [closeAndPublish_nonTest js bs sessionId chatId date hinfo]
    by_cases hlen : (GetParticipants bs.store sessionId).length = 0
    · rw [if_pos hlen]
      rw [closeAndPublish_nonTest jsB
        ({ store := CloseSession bs.store sessionId,
           outbox := bs.outbox ++ [Msg.noParticipants chatId] } : BotState)
        sessionId chatId date hinfo2]
      rw [GetParticipants_close, if_pos hlen]
      exact CloseSession_idem bs.store sessionId
    · rw [if_neg hlen]
      rw [closeAndPublish_nonTest jsB
        ({ store := CloseSession bs.store sessionId,
           outbox := bs.outbox ++ [Msg.results chatId
             (MakeGroups js ((GetParticipants bs.store sessionId).map participantUser))] } :
          BotState)
        sessionId chatId date hinfo2]
      rw [GetParticipants_close, if_neg hlen]
      exact CloseSession_idem bs.store sessionId

end CloseIdempotence

/-!
The recurring scheduler (scheduler.go).

Instants are Unix seconds (Nat); a UTC calendar day is 86400 seconds, so
time.Date(from.Year, from.Month, from.Day, hh, mm, 0, 0, UTC) is the
midnight of the current day plus hh hours and mm minutes.
-/

/-- time.Date(from.Year(), from.Month(), from.Day(), hh, mm, 0, 0, UTC):
the occurrence of hh:mm on the day containing the reference instant. -/
def todayOccurrence (hh mm fromT : Nat) : Nat :=
  (fromT / 86400) * 86400 + hh * 3600 + mm * 60

/-- The getNext closure of loopDaily: the occurrence of hh:mm today if it
is still strictly ahead, else the same time tomorrow. -/
def getNext (hh mm fromT : Nat) : Nat :=
  if fromT < todayOccurrence hh mm fromT then todayOccurrence hh mm fromT
  else todayOccurrence hh mm fromT + 86400

/-- The once-per-minute reconfiguration branch of loopDaily: recompute the
next occurrence from the (possibly changed) configured time and re-arm
the timer whenever it differs from the armed one. -/
def rearmOnTick (next h2 m2 now : Nat) : Nat :=
  if getNext h2 m2 now ≠ next then getNext h2 m2 now else next

/-- strconv.Atoi on a 64-bit platform: optional sign, then a non-empty
run of decimal digits, with the int64 range check; none models a non-nil
error. -/
def goAtoi (s : String) : Option Int :=
  if s.isEmpty then none
  else
    let digits := if s.front = '-' ∨ s.front = '+' then s.drop 1 else s
    if digits.isEmpty then none
    else if ¬ digits.toList.all Char.isDigit then none
    else
      let n : Nat := digits.toList.foldl (fun acc c => acc * 10 + (c.toNat - 48)) 0
      if s.front = '-' then
        if n ≤ 2 ^ 63 then some (-(n : Int)) else none
      else
        if n ≤ 2 ^ 63 - 1 then some (n : Int) else none

/-- scheduler.parseDaily (the strconv variant of internal/db/db.go):
split on the colon, parse both fields, range-check, and fall back to
(9, 0) on any failure. -/
def parseDaily (t : String) : Int × Int :=
  match t.splitOn ":" with
  | [p0, p1] =>
    match goAtoi p0, goAtoi p1 with
    | some hh, some mm =>
      if hh < 0 ∨ 23 < hh ∨ mm < 0 ∨ 59 < mm then (9, 0) else (hh, mm)
    | _, _ => (9, 0)
  | _ => (9, 0)

/-- parseDaily either falls back to (9, 0) or returns the two parsed
in-range fields. -/
theorem parseDaily_cases (t : String) :
    parseDaily t = (9, 0)
      ∨ ∃ p0 p1 hh mm, t.splitOn ":" = [p0, p1]
          ∧ goAtoi p0 = some hh ∧ goAtoi p1 = some mm
          ∧ 0 ≤ hh ∧ hh ≤ 23 ∧ 0 ≤ mm ∧ mm ≤ 59 ∧ parseDaily t = (hh, mm) := by
  rcases h : t.splitOn ":" with _ | ⟨p0, _ | ⟨p1, _ | ⟨p2, rest⟩⟩⟩
  · left
    simp [parseDaily, h]
  · left
    simp [parseDaily, h]
  · cases h0 : goAtoi p0 with
    | none =>
      left
      simp [parseDaily, h, h0]
    | some hh =>
      cases h1 : goAtoi p1 with
      | none =>
        left
        simp [parseDaily, h, h0, h1]
      | some mm =>
        by_cases hbad : hh < 0 ∨ 23 < hh ∨ mm < 0 ∨ 59 < mm
        · left
          simp [parseDaily, h, h0, h1, hbad]
        · right
          have hok := hbad
          push_neg at hok
          exact ⟨p0, p1, hh, mm, rfl, h0, h1, hok.1, hok.2.1, hok.2.2.1, hok.2.2.2,
            by simp [parseDaily, h, h0, h1, hbad]⟩
  · left
    simp [parseDaily, h]

/-- Claim C10: parseDaily is total and range-safe — for every input the
hour lies in [0, 23] and the minute in [0, 59], and any input that does
not split on the colon into exactly two numeric in-range fields yields
the (9, 0) fallback. -/
theorem claim_C10_parseDaily_total_range_safe (t : String) :
    (0 ≤ (parseDaily t).1 ∧ (parseDaily t).1 ≤ 23
      ∧ 0 ≤ (parseDaily t).2 ∧ (parseDaily t).2 ≤ 59)
      ∧ (parseDaily t = (9, 0)
          ∨ ∃ p0 p1 hh mm, t.splitOn ":" = [p0, p1]
              ∧ goAtoi p0 = some hh ∧ goAtoi p1 = some mm
              ∧ 0 ≤ hh ∧ hh ≤ 23 ∧ 0 ≤ mm ∧ mm ≤ 59 ∧ parseDaily t = (hh, mm)) := by
  have h := parseDaily_cases t
  constructor
  · rcases h with h | ⟨p0, p1, hh, mm, _, _, _, h1, h2, h3, h4, heq⟩
    · rw [h]
      exact ⟨by norm_num, by norm_num, by norm_num, by norm_num⟩
    · rw [heq]
      exact ⟨h1, h2, h3, h4⟩
  · exact h

/-- Claim C9: the computed next fire is always strictly after the
reference instant; it is the occurrence of HH:MM today exactly when that
occurrence is still strictly ahead, and the same time tomorrow otherwise;
and the reconfiguration tick always leaves the timer armed at the next
occurrence computed from the current configured time. -/
theorem claim_C9_daily_next_fire (hh mm fromT : Nat) :
    fromT < getNext hh mm fromT
      ∧ (fromT < todayOccurrence hh mm fromT →
          getNext hh mm fromT = todayOccurrence hh mm fromT)
      ∧ (todayOccurrence hh mm fromT ≤ fromT →
          getNext hh mm fromT = todayOccurrence hh mm fromT + 86400)
      ∧ (∀ next h2 m2 now, rearmOnTick next h2 m2 now = getNext h2 m2 now) := by
  refine ⟨?_, ?_, ?_, ?_⟩
  · unfold getNext
    split
    case isTrue h => exact h
    case isFalse h =>
      unfold todayOccurrence at h ⊢
      have hdm := Nat.div_add_mod fromT 86400
      have hmod : fromT % 86400 < 86400 := Nat.mod_lt _ (by norm_num)
      omega
  · intro h
    unfold getNext
    rw [if_pos h]
  · intro h
    unfold getNext
    rw [if_neg (not_lt.mpr h)]
  · intro next h2 m2 now
    unfold rearmOnTick
    by_cases h : getNext h2 m2 now = next
    · simp [h]
    · simp [h]

/-- Witness for claim C9 at the spec scenario: daily time 08:00, now
07:00 UTC of day zero (25200 s) — the next fire is today 08:00 (28800 s)
and strictly ahead of now; a reconfiguration tick at 07:01 with the time
changed to 07:30 re-arms to the newly computed occurrence. -/
theorem claim_C9_daily_next_fire_witness :
    25200 < getNext 8 0 25200
      ∧ getNext 8 0 25200 = todayOccurrence 8 0 25200
      ∧ rearmOnTick (getNext 8 0 25200) 7 30 25260 = getNext 7 30 25260 :=
  ⟨(claim_C9_daily_next_fire 8 0 25200).1,
   (claim_C9_daily_next_fire 8 0 25200).2.1 (by decide),
   (claim_C9_daily_next_fire 8 0 25200).2.2.2 (getNext 8 0 25200) 7 30 25260⟩

end Coffeetrix
